import Mathlib

/-!
Verification of the AIAgent task ledger.

The ledger is the Solidity contract `contract.sol`: a `Task` struct, a
`taskCounter`, a `tasks` mapping, and the operations `createTask`,
`completeTask`, `getTask` together with the events `TaskCreated` and
`TaskCompleted`.  The contract storage and the emitted event log are embedded
as an explicit state; a reverting call (failed `require`, checked-arithmetic
overflow) leaves the state unchanged, as on the EVM.  Addresses are modelled
as natural numbers; `uint256` values as natural numbers bounded by
`UINT256_MAX` where the bound matters.

The off-chain components the specification describes (Query Service, Result
Submitter) are not present in the repository sources; where a claim is about
them, the corresponding definition is modelled from the spec and says so in
its doc comment.
-/

namespace AIAgent

/-- Task record, as in the Solidity struct: `uint256 id; string topic;
string result; address requester`. -/
structure Task where
  id : Nat
  topic : String
  result : String
  requester : Nat
deriving DecidableEq, Repr

/-- Zero-valued `Task`: what a Solidity mapping returns for a key that was
never written. -/
def zeroTask : Task := ⟨0, "", "", 0⟩

/-- Events the contract can emit. -/
inductive Event where
  | TaskCreated (id : Nat) (topic : String) (requester : Nat)
  | TaskCompleted (id : Nat) (result : String)
deriving DecidableEq, Repr

/-- Contract storage (`taskCounter`, the `tasks` mapping) together with the
log of emitted events. -/
structure AIAgentState where
  taskCounter : Nat
  tasks : Nat → Task
  log : List Event

/-- Largest value a `uint256` can hold. -/
def UINT256_MAX : Nat := 2 ^ 256 - 1

/-- Storage of the freshly deployed contract: counter `0`, every mapping slot
zero-valued, no events emitted. -/
def initState : AIAgentState := ⟨0, fun _ => zeroTask, []⟩

/-- State produced by the success path of `createTask`: the incremented
counter, the new record `Task(taskCounter, _topic, "", msg.sender)` stored at
the new counter value, and the `TaskCreated` event appended. -/
def createUpdate (st : AIAgentState) (topic : String) (sender : Nat) : AIAgentState :=
  ⟨st.taskCounter + 1,
   fun i => if i = st.taskCounter + 1 then ⟨st.taskCounter + 1, topic, "", sender⟩
            else st.tasks i,
   st.log ++ [.TaskCreated (st.taskCounter + 1) topic sender]⟩

/-- The contract function `createTask(string memory _topic)`.  Solidity 0.8
checked arithmetic makes `taskCounter++` revert on `uint256` overflow; the
function has no return value, so the success case carries only the updated
state. -/
def createTask (st : AIAgentState) (topic : String) (sender : Nat) :
    Except String AIAgentState :=
  if st.taskCounter + 1 ≤ UINT256_MAX then .ok (createUpdate st topic sender)
  else .error "arithmetic overflow"

/-- State produced by the success path of `completeTask`: the record at `_id`
gets its `result` field replaced, everything else is untouched, and the
`TaskCompleted` event is appended. -/
def completeUpdate (st : AIAgentState) (id : Nat) (result : String) : AIAgentState :=
  ⟨st.taskCounter,
   fun i => if i = id then ⟨(st.tasks i).id, (st.tasks i).topic, result, (st.tasks i).requester⟩
            else st.tasks i,
   st.log ++ [.TaskCompleted id result]⟩

/-- The contract function `completeTask(uint256 _id, string memory _result)`:
`require(tasks[_id].id != 0, "Task does not exist")`, then stores the result
and emits `TaskCompleted(_id, _result)`. -/
def completeTask (st : AIAgentState) (id : Nat) (result : String) :
    Except String AIAgentState :=
  if (st.tasks id).id ≠ 0 then .ok (completeUpdate st id result)
  else .error "Task does not exist"

/-- The contract function `getTask(uint256 _id)`: returns `tasks[_id]`, the
zero-valued record when `_id` was never written. -/
def getTask (st : AIAgentState) (id : Nat) : Task := st.tasks id

/-- One external call to the contract. -/
inductive Op where
  | create (topic : String) (sender : Nat)
  | complete (id : Nat) (result : String)
deriving DecidableEq, Repr

/-- EVM semantics of one call: a reverted call changes nothing (storage and
log are rolled back). -/
def applyOp (st : AIAgentState) : Op → AIAgentState
  | .create t s =>
      match createTask st t s with
      | .ok st' => st'
      | .error _ => st
  | .complete id r =>
      match completeTask st id r with
      | .ok st' => st'
      | .error _ => st

/-- State after a sequence of calls against the freshly deployed contract. -/
def execOps (ops : List Op) : AIAgentState := ops.foldl applyOp initState

/-- A state is reachable when some call sequence produces it. -/
def Reachable (st : AIAgentState) : Prop := ∃ ops : List Op, execOps ops = st

/-- Ids announced by `TaskCreated` events, in emission order. -/
def createdIds (log : List Event) : List Nat :=
  log.filterMap fun e =>
    match e with
    | .TaskCreated id _ _ => some id
    | _ => none

/-- Storage invariant: the counter fits in a `uint256`, slots `1..taskCounter`
hold records whose `id` field equals the slot index, every other slot is
zero-valued, and the `TaskCreated` log announces exactly the ids
`1..taskCounter` in order. -/
def Inv (st : AIAgentState) : Prop :=
  st.taskCounter ≤ UINT256_MAX ∧
  (∀ i, 1 ≤ i → i ≤ st.taskCounter → (st.tasks i).id = i) ∧
  (∀ i, i = 0 ∨ st.taskCounter < i → st.tasks i = zeroTask) ∧
  createdIds st.log = List.range' 1 st.taskCounter

lemma inv_initState : Inv initState := by
  refine ⟨Nat.zero_le _, ?_, ?_, ?_⟩
  · intro i h1 h2
    exact absurd (Nat.le_trans h1 h2) (by decide)
  · intro i _
    rfl
  · rfl

lemma createdIds_append (l1 l2 : List Event) :
    createdIds (l1 ++ l2) = createdIds l1 ++ createdIds l2 :=
  List.filterMap_append l1 l2 _

lemma inv_applyOp (st : AIAgentState) (op : Op) (h : Inv st) : Inv (applyOp st op) := by
  obtain ⟨hmax, hin, hout, hlog⟩ := h
  cases op with
  | create t s =>
      by_cases hc : st.taskCounter + 1 ≤ UINT256_MAX
      · have happ : applyOp st (.create t s) = createUpdate st t s := by
          simp [applyOp, createTask, hc]
        rw [happ]
        refine ⟨hc, ?_, ?_, ?_⟩
        · intro i h1 h2
          simp only [createUpdate] at h2 ⊢
          by_cases hi : i = st.taskCounter + 1
          · simp [hi]
          · simp only [hi, if_false]
            exact hin i h1 (Nat.lt_succ_iff.mp (Nat.lt_of_le_of_ne h2 hi))
        · intro i hi
          simp only [createUpdate] at hi ⊢
          have hne : i ≠ st.taskCounter + 1 := by omega
          simp only [hne, if_false]
          apply hout
          rcases hi with h0 | hgt
          · exact Or.inl h0
          · exact Or.inr (by omega)
        · simp only [createUpdate, createdIds_append, hlog]
          have hev : createdIds [Event.TaskCreated (st.taskCounter + 1) t s]
              = [st.taskCounter + 1] := rfl
          rw [hev, List.range'_1_concat, Nat.add_comm 1 st.taskCounter]
      · have happ : applyOp st (.create t s) = st := by
          simp [applyOp, createTask, hc]
        rw [happ]
        exact ⟨hmax, hin, hout, hlog⟩
  | complete id r =>
      by_cases hg : (st.tasks id).id ≠ 0
      · have happ : applyOp st (.complete id r) = completeUpdate st id r := by
          simp [applyOp, completeTask, hg]
        rw [happ]
        refine ⟨hmax, ?_, ?_, ?_⟩
        · intro i h1 h2
          simp only [completeUpdate] at h2 ⊢
          by_cases hi : i = id
          · simp only [hi, if_true, if_pos rfl]
            exact hin id (hi ▸ h1) (hi ▸ h2)
          · simp only [hi, if_false]
            exact hin i h1 h2
        · intro i hi
          simp only [completeUpdate] at hi ⊢
          have hne : i ≠ id := by
            intro hEq
            apply hg
            rw [← hEq, hout i hi]
            rfl
          simp only [hne, if_false]
          exact hout i hi
        · simp only [completeUpdate, createdIds_append, hlog]
          have : createdIds [Event.TaskCompleted id r] = [] := rfl
          rw [this, List.append_nil]
      · have happ : applyOp st (.complete id r) = st := by
          simp [applyOp, completeTask, hg]
        rw [happ]
        exact ⟨hmax, hin, hout, hlog⟩

lemma inv_foldl (ops : List Op) (st : AIAgentState) (h : Inv st) :
    Inv (ops.foldl applyOp st) := by
  induction ops generalizing st with
  | nil => exact h
  | cons op ops ih => exact ih (applyOp st op) (inv_applyOp st op h)

lemma reachable_inv (st : AIAgentState) (h : Reachable st) : Inv st := by
  obtain ⟨ops, hops⟩ := h
  rw [← hops]
  exact inv_foldl ops initState inv_initState

lemma mem_createdIds_iff (st : AIAgentState) (h : Inv st) (id : Nat) :
    id ∈ createdIds st.log ↔ 1 ≤ id ∧ id ≤ st.taskCounter := by
  rw [h.2.2.2, List.mem_range'_1]
  omega

lemma tasks_id_zero_iff (st : AIAgentState) (h : Inv st) (id : Nat) :
    (st.tasks id).id = 0 ↔ id = 0 ∨ st.taskCounter < id := by
  constructor
  · intro hz
    by_contra hcon
    push_neg at hcon
    have h1 : 1 ≤ id := Nat.one_le_iff_ne_zero.mpr hcon.1
    have h2 : id ≤ st.taskCounter := hcon.2
    have := h.2.1 id h1 h2
    omega
  · intro hcase
    rw [h.2.2.1 id hcase]
    rfl

/-- Demo state: the contract after `createTask("Web3 Integration")` from
address `7`. -/
def stA : AIAgentState :=
  ⟨1,
   fun i => if i = 1 then ⟨1, "Web3 Integration", "", 7⟩ else zeroTask,
   [.TaskCreated 1 "Web3 Integration" 7]⟩

lemma reachable_stA : Reachable stA := ⟨[.create "Web3 Integration" 7], rfl⟩

/-- Demo state: `stA` after `completeTask(1, "Generated content...")`. -/
def stB : AIAgentState := completeUpdate stA 1 "Generated content..."

lemma reachable_stB : Reachable stB :=
  ⟨[.create "Web3 Integration" 7, .complete 1 "Generated content..."], rfl⟩

lemma completeTask_error_iff_id_zero (st : AIAgentState) (id : Nat) (r : String) :
    completeTask st id r = Except.error "Task does not exist" ↔ (st.tasks id).id = 0 := by
  by_cases hg : (st.tasks id).id = 0
  · simp [completeTask, hg]
  · simp [completeTask, hg]

/-- C1: in every reachable state, `completeTask id result` fails with message
"Task does not exist" if and only if `id` is `0` or no task with that id was
ever created (announced by a `TaskCreated` event); otherwise it succeeds,
stores `result` in the task's `result` field, and appends
`TaskCompleted id result` to the event log. -/
theorem completeTask_error_characterization (st : AIAgentState) (h : Reachable st)
    (id : Nat) (r : String) :
    (completeTask st id r = Except.error "Task does not exist" ↔
      id = 0 ∨ id ∉ createdIds st.log) ∧
    (¬ (id = 0 ∨ id ∉ createdIds st.log) →
      completeTask st id r = Except.ok (completeUpdate st id r)) ∧
    ((completeUpdate st id r).tasks id).result = r ∧
    (completeUpdate st id r).log = st.log ++ [Event.TaskCompleted id r] := by
  have hinv := reachable_inv st h
  have hmem := mem_createdIds_iff st hinv id
  have hzero := tasks_id_zero_iff st hinv id
  refine ⟨?_, ?_, by simp [completeUpdate], rfl⟩
  · rw [completeTask_error_iff_id_zero, hzero, hmem]
    omega
  · intro hcon
    rw [hmem] at hcon
    have hg : (st.tasks id).id ≠ 0 := by
      rw [Ne, hzero]
      omega
    simp [completeTask, hg]

/-- C1 witness: instantiated at the reachable one-task state `stA`, id `1`. -/
theorem completeTask_error_characterization_witness :
    ((completeTask stA 1 "out" = Except.error "Task does not exist" ↔
        1 = 0 ∨ 1 ∉ createdIds stA.log) ∧
      (¬ (1 = 0 ∨ 1 ∉ createdIds stA.log) →
        completeTask stA 1 "out" = Except.ok (completeUpdate stA 1 "out")) ∧
      ((completeUpdate stA 1 "out").tasks 1).result = "out" ∧
      (completeUpdate stA 1 "out").log = stA.log ++ [Event.TaskCompleted 1 "out"]) :=
  completeTask_error_characterization stA reachable_stA 1 "out"

/-- C2: reachability invariant of the storage: no task ever sits at slot `0`,
the counter equals the number of `TaskCreated` events, slots `1..taskCounter`
hold records whose `id` equals the slot index, every slot beyond the counter
is zero-valued, and the created ids are exactly the dense increasing sequence
`1..taskCounter`, never reused. -/
theorem reachable_ids_dense (st : AIAgentState) (h : Reachable st) :
    st.tasks 0 = zeroTask ∧
    st.taskCounter = (createdIds st.log).length ∧
    (∀ i, 1 ≤ i → i ≤ st.taskCounter → (st.tasks i).id = i) ∧
    (∀ i, st.taskCounter < i → st.tasks i = zeroTask) ∧
    createdIds st.log = List.range' 1 st.taskCounter := by
  have hinv := reachable_inv st h
  refine ⟨hinv.2.2.1 0 (Or.inl rfl), ?_, hinv.2.1,
    fun i hi => hinv.2.2.1 i (Or.inr hi), hinv.2.2.2⟩
  rw [hinv.2.2.2, List.length_range']

/-- C2 witness: instantiated at the reachable state `stB` (one creation, one
completion). -/
theorem reachable_ids_dense_witness :
    (stB.tasks 0 = zeroTask ∧
      stB.taskCounter = (createdIds stB.log).length ∧
      (∀ i, 1 ≤ i → i ≤ stB.taskCounter → (stB.tasks i).id = i) ∧
      (∀ i, stB.taskCounter < i → stB.tasks i = zeroTask) ∧
      createdIds stB.log = List.range' 1 stB.taskCounter) :=
  reachable_ids_dense stB reachable_stB

/-- C3: for every state, topic and caller, `createTask` (absent `uint256`
overflow of the counter) increments the counter, stores a record with the new
counter value as id, the given topic, an empty result and the caller as
requester, and emits `TaskCreated`; it has no return value beyond the updated
state. -/
theorem createTask_spec (st : AIAgentState) (topic : String) (sender : Nat)
    (h : st.taskCounter + 1 ≤ UINT256_MAX) :
    createTask st topic sender = Except.ok (createUpdate st topic sender) ∧
    (createUpdate st topic sender).taskCounter = st.taskCounter + 1 ∧
    (createUpdate st topic sender).tasks (st.taskCounter + 1) =
      ⟨st.taskCounter + 1, topic, "", sender⟩ ∧
    (createUpdate st topic sender).log =
      st.log ++ [Event.TaskCreated (st.taskCounter + 1) topic sender] :=
  ⟨by simp [createTask, h], rfl, by simp [createUpdate], rfl⟩

/-- C3 witness: creating the first task on the freshly deployed contract. -/
theorem createTask_spec_witness :
    (createTask initState "Web3 Integration" 7 =
      Except.ok (createUpdate initState "Web3 Integration" 7) ∧
    (createUpdate initState "Web3 Integration" 7).taskCounter = initState.taskCounter + 1 ∧
    (createUpdate initState "Web3 Integration" 7).tasks (initState.taskCounter + 1) =
      ⟨initState.taskCounter + 1, "Web3 Integration", "", 7⟩ ∧
    (createUpdate initState "Web3 Integration" 7).log =
      initState.log ++ [Event.TaskCreated (initState.taskCounter + 1) "Web3 Integration" 7]) :=
  createTask_spec initState "Web3 Integration" 7 (by decide)

/-- C4: frame condition.  No operation (reverting or not) ever changes the
`id`, `topic` or `requester` field of an already created task; and a
successful `completeTask id r` leaves the counter alone, leaves every other
slot of the mapping untouched, and rewrites exactly the `result` field of the
record at `id`. -/
theorem task_fields_immutable (st : AIAgentState) :
    (∀ op : Op, ∀ i, 1 ≤ i → i ≤ st.taskCounter →
      ((applyOp st op).tasks i).id = (st.tasks i).id ∧
      ((applyOp st op).tasks i).topic = (st.tasks i).topic ∧
      ((applyOp st op).tasks i).requester = (st.tasks i).requester) ∧
    (∀ id r st', completeTask st id r = Except.ok st' →
      st'.taskCounter = st.taskCounter ∧
      (∀ j, j ≠ id → st'.tasks j = st.tasks j) ∧
      st'.tasks id = ⟨(st.tasks id).id, (st.tasks id).topic, r, (st.tasks id).requester⟩) := by
  constructor
  · intro op i h1 h2
    cases op with
    | create t s =>
        by_cases hc : st.taskCounter + 1 ≤ UINT256_MAX
        · have happ : applyOp st (.create t s) = createUpdate st t s := by
            simp [applyOp, createTask, hc]
          have hne : i ≠ st.taskCounter + 1 := by omega
          rw [happ]
          simp [createUpdate, hne]
        · have happ : applyOp st (.create t s) = st := by
            simp [applyOp, createTask, hc]
          rw [happ]
          exact ⟨rfl, rfl, rfl⟩
    | complete id r =>
        by_cases hg : (st.tasks id).id ≠ 0
        · have happ : applyOp st (.complete id r) = completeUpdate st id r := by
            simp [applyOp, completeTask, hg]
          rw [happ]
          by_cases hi : i = id
          · simp [completeUpdate, hi]
          · simp [completeUpdate, hi]
        · have happ : applyOp st (.complete id r) = st := by
            simp [applyOp, completeTask, hg]
          rw [happ]
          exact ⟨rfl, rfl, rfl⟩
  · intro id r st' hok
    by_cases hg : (st.tasks id).id ≠ 0
    · simp [completeTask, hg] at hok
      rw [← hok]
      refine ⟨rfl, ?_, by simp [completeUpdate]⟩
      intro j hj
      simp [completeUpdate, hj]
    · simp [completeTask, hg] at hok

/-- C4 witness: re-completing task 1 of `stB` changes only its result. -/
theorem task_fields_immutable_witness :
    (((applyOp stB (Op.complete 1 "v2")).tasks 1).id = (stB.tasks 1).id ∧
      ((applyOp stB (Op.complete 1 "v2")).tasks 1).topic = (stB.tasks 1).topic ∧
      ((applyOp stB (Op.complete 1 "v2")).tasks 1).requester = (stB.tasks 1).requester) ∧
    ((completeUpdate stB 1 "v2").taskCounter = stB.taskCounter ∧
      (∀ j, j ≠ 1 → (completeUpdate stB 1 "v2").tasks j = stB.tasks j) ∧
      (completeUpdate stB 1 "v2").tasks 1 =
        ⟨(stB.tasks 1).id, (stB.tasks 1).topic, "v2", (stB.tasks 1).requester⟩) :=
  ⟨(task_fields_immutable stB).1 (Op.complete 1 "v2") 1 (by decide) (by decide),
   (task_fields_immutable stB).2 1 "v2" (completeUpdate stB 1 "v2") rfl⟩

/-- C5: `completeTask` imposes no guard against re-invocation: for any
existing task (id field nonzero) whose result is already non-empty, a further
call succeeds and overwrites the stored result. -/
theorem completeTask_recomplete (st : AIAgentState) (id : Nat) (r2 : String)
    (hexists : (st.tasks id).id ≠ 0) (_hdone : (st.tasks id).result ≠ "") :
    completeTask st id r2 = Except.ok (completeUpdate st id r2) ∧
    ((completeUpdate st id r2).tasks id).result = r2 :=
  ⟨by simp [completeTask, hexists], by simp [completeUpdate]⟩

/-- C5 witness: re-completing the already completed task 1 of `stB`. -/
theorem completeTask_recomplete_witness :
    (completeTask stB 1 "v2" = Except.ok (completeUpdate stB 1 "v2") ∧
      ((completeUpdate stB 1 "v2").tasks 1).result = "v2") :=
  completeTask_recomplete stB 1 "v2" (by decide) (by decide)

/-- Demo state: `stB` after `completeTask(1, "")` — the completed task 1 is
back to an empty result. -/
def stC : AIAgentState := completeUpdate stB 1 ""

/-- C6 counterexample: the lifecycle is not one-way on the contract.  `stB`
is reachable with task 1 completed (non-empty result); a second
`completeTask` call with an empty result succeeds and yields the reachable
state `stC` in which task 1's result is empty again, i.e. a `Completed` task
returned to `Pending`, and completion was not unique. -/
theorem lifecycle_counterexample :
    Reachable stB ∧
    (stB.tasks 1).result = "Generated content..." ∧
    completeTask stB 1 "" = Except.ok stC ∧
    (stC.tasks 1).id = 1 ∧
    (stC.tasks 1).result = "" ∧
    Reachable stC :=
  ⟨reachable_stB, rfl, rfl, rfl, rfl,
   ⟨[.create "Web3 Integration" 7, .complete 1 "Generated content...", .complete 1 ""], rfl⟩⟩

/-- C6 amended: tasks are never deleted (an existing task keeps a nonzero id
across every call), and the Pending-to-Completed movement is one-way only
under the discipline the spec assigns to the Result Submitter — when no
`completeTask` call carries an empty result; the contract itself neither
limits the number of `completeTask` calls per task nor forbids an
empty-result call from returning a `Completed` task to `Pending`. -/
theorem lifecycle_amended (st : AIAgentState) (h : Reachable st) (op : Op) (i : Nat) :
    ((st.tasks i).id ≠ 0 → ((applyOp st op).tasks i).id ≠ 0) ∧
    ((∀ id r, op = Op.complete id r → r ≠ "") →
      (st.tasks i).result ≠ "" → ((applyOp st op).tasks i).result ≠ "") := by
  have hinv := reachable_inv st h
  cases op with
  | create t s =>
      by_cases hc : st.taskCounter + 1 ≤ UINT256_MAX
      · have happ : applyOp st (.create t s) = createUpdate st t s := by
          simp [applyOp, createTask, hc]
        rw [happ]
        by_cases hi : i = st.taskCounter + 1
        · have hz : st.tasks i = zeroTask := hinv.2.2.1 i (Or.inr (by omega))
          constructor
          · intro hid
            rw [hz] at hid
            exact absurd rfl hid
          · intro _ hres
            rw [hz] at hres
            exact absurd rfl hres
        · simp [createUpdate, hi]
      · have happ : applyOp st (.create t s) = st := by
          simp [applyOp, createTask, hc]
        rw [happ]
        exact ⟨id, fun _ => id⟩
  | complete cid r =>
      by_cases hg : (st.tasks cid).id ≠ 0
      · have happ : applyOp st (.complete cid r) = completeUpdate st cid r := by
          simp [applyOp, completeTask, hg]
        rw [happ]
        by_cases hi : i = cid
        · constructor
          · intro hid
            simpa [completeUpdate, hi] using hid
          · intro hne _
            have hr : r ≠ "" := hne cid r rfl
            simpa [completeUpdate, hi] using hr
        · simp [completeUpdate, hi]
      · have happ : applyOp st (.complete cid r) = st := by
          simp [applyOp, completeTask, hg]
        rw [happ]
        exact ⟨id, fun _ => id⟩

/-- C6 amended witness: a further non-empty completion of `stB`'s task 1
keeps it existing and keeps its result non-empty. -/
theorem lifecycle_amended_witness :
    (((stB.tasks 1).id ≠ 0 → ((applyOp stB (Op.complete 1 "second")).tasks 1).id ≠ 0) ∧
      ((∀ id r, Op.complete 1 "second" = Op.complete id r → r ≠ "") →
        (stB.tasks 1).result ≠ "" →
        ((applyOp stB (Op.complete 1 "second")).tasks 1).result ≠ "")) :=
  lifecycle_amended stB reachable_stB (Op.complete 1 "second") 1

/-- Failure of the spec-modelled Query Service. -/
inductive QueryError where
  | NotFound
deriving DecidableEq, Repr

/-- Modelled from the spec: the Query Service's task lookup (the FastAPI
service of §4.4 is not among the repository sources).  Per §4.4 it returns
the Task record and fails with `NotFound` when `id` is `0` or unknown; over
the ledger's `getTask`, which hands back a zero-valued record for unknown ids
(§6), that means failing exactly when the returned record's `id` field is
`0`. -/
def queryGetTask (st : AIAgentState) (id : Nat) : Except QueryError Task :=
  if (getTask st id).id = 0 then Except.error QueryError.NotFound
  else Except.ok (getTask st id)

/-- C7: in every reachable state, the Query Service lookup of id `0` or of an
id never created fails with `NotFound` and returns no record. -/
theorem queryGetTask_notFound (st : AIAgentState) (h : Reachable st) (id : Nat)
    (hid : id = 0 ∨ id ∉ createdIds st.log) :
    queryGetTask st id = Except.error QueryError.NotFound := by
  have hinv := reachable_inv st h
  have hz : (st.tasks id).id = 0 := by
    rw [tasks_id_zero_iff st hinv id]
    rw [mem_createdIds_iff st hinv id] at hid
    omega
  simp [queryGetTask, getTask, hz]

/-- C7 witness: `getTask(0)` fails with `NotFound` on the reachable state
`stB`. -/
theorem queryGetTask_notFound_witness :
    queryGetTask stB 0 = Except.error QueryError.NotFound :=
  queryGetTask_notFound stB reachable_stB 0 (Or.inl rfl)

/-- C8 counterexample: the ledger does not reject an empty topic.
`createTask("")` on the freshly deployed contract succeeds and the reachable
resulting state stores task 1 with an empty topic. -/
theorem empty_topic_counterexample :
    createTask initState "" 7 = Except.ok (createUpdate initState "" 7) ∧
    ((createUpdate initState "" 7).tasks 1).id = 1 ∧
    ((createUpdate initState "" 7).tasks 1).topic = "" ∧
    Reachable (createUpdate initState "" 7) :=
  ⟨rfl, rfl, rfl, ⟨[.create "" 7], rfl⟩⟩

/-- C8 amended: the contract stores the topic exactly as supplied, including
the empty string, and does not validate non-emptiness; per the spec (§6),
rejecting an empty topic is the responsibility of the off-chain API layer,
which is not part of the ledger sources. -/
theorem topic_stored_as_supplied (st : AIAgentState) (topic : String) (sender : Nat)
    (h : st.taskCounter + 1 ≤ UINT256_MAX) :
    createTask st topic sender = Except.ok (createUpdate st topic sender) ∧
    ((createUpdate st topic sender).tasks (st.taskCounter + 1)).topic = topic :=
  ⟨by simp [createTask, h], by simp [createUpdate]⟩

/-- C8 amended witness: the empty topic is accepted and stored verbatim. -/
theorem topic_stored_as_supplied_witness :
    (createTask initState "" 7 = Except.ok (createUpdate initState "" 7) ∧
      ((createUpdate initState "" 7).tasks (initState.taskCounter + 1)).topic = "") :=
  topic_stored_as_supplied initState "" 7 (by decide)

/-- Modelled from the spec: default content bound of the truncation policy
(~5,000 characters / ~10 KB, §4.3); the Result Submitter is not among the
repository sources. -/
def MAX_CHARS : Nat := 5000

/-- Modelled from the spec: the Result Submitter's truncation policy (§4.3).
Results are modelled as lists of characters; a result that exceeds the
configured maximum is cut so that, together with the appended truncation
marker, it fits the limit. -/
def truncateResult (maxChars : Nat) (marker : List Char) (r : List Char) : List Char :=
  if r.length ≤ maxChars then r else r.take (maxChars - marker.length) ++ marker

/-- Modelled from the spec: the Result Submitter issues `completeTask` with
the truncated result, after the §4.3 idempotency check (no-op when the task
already carries a non-empty result). -/
def submitResult (maxChars : Nat) (marker : List Char) (st : AIAgentState)
    (id : Nat) (r : List Char) : Except String AIAgentState :=
  if (getTask st id).result ≠ "" then Except.ok st
  else completeTask st id (String.mk (truncateResult maxChars marker r))

/-- C9: the submitted result never exceeds the configured maximum length,
truncation is deterministic, and whenever the submitter writes to the ledger
at all, the ledger receives exactly the truncated form. -/
theorem truncation_spec (maxChars : Nat) (marker : List Char) (r : List Char)
    (hm : marker.length ≤ maxChars) :
    (truncateResult maxChars marker r).length ≤ maxChars ∧
    (∀ r2, r2 = r → truncateResult maxChars marker r2 = truncateResult maxChars marker r) ∧
    (∀ st id st', submitResult maxChars marker st id r = Except.ok st' →
      st' = st ∨ st' = completeUpdate st id (String.mk (truncateResult maxChars marker r))) ∧
    (∀ st id,
      ((completeUpdate st id (String.mk (truncateResult maxChars marker r))).tasks id).result
        = String.mk (truncateResult maxChars marker r)) := by
  refine ⟨?_, ?_, ?_, ?_⟩
  · by_cases hlen : r.length ≤ maxChars
    · simp [truncateResult, hlen]
    · simp only [truncateResult, hlen, if_false]
      rw [List.length_append, List.length_take]
      omega
  · intro r2 h2
    rw [h2]
  · intro st id st' hsub
    by_cases hres : (getTask st id).result ≠ ""
    · simp [submitResult, hres] at hsub
      exact Or.inl hsub.symm
    · simp only [submitResult, hres, if_neg, ite_false, if_false] at hsub
      by_cases hg : (st.tasks id).id ≠ 0
      · simp [completeTask, hg] at hsub
        exact Or.inr hsub.symm
      · simp [completeTask, hg] at hsub
  · intro st id
    simp [completeUpdate]

/-- C9 witness: a 6,000-character result against the default 5,000-character
bound with a one-character marker. -/
theorem truncation_spec_witness :
    ((truncateResult MAX_CHARS [Char.ofNat 35] (List.replicate 6000 (Char.ofNat 97))).length
        ≤ MAX_CHARS ∧
      (∀ r2, r2 = List.replicate 6000 (Char.ofNat 97) →
        truncateResult MAX_CHARS [Char.ofNat 35] r2 =
          truncateResult MAX_CHARS [Char.ofNat 35] (List.replicate 6000 (Char.ofNat 97))) ∧
      (∀ st id st',
        submitResult MAX_CHARS [Char.ofNat 35] st id (List.replicate 6000 (Char.ofNat 97)) =
          Except.ok st' →
        st' = st ∨
          st' = completeUpdate st id (String.mk
            (truncateResult MAX_CHARS [Char.ofNat 35] (List.replicate 6000 (Char.ofNat 97))))) ∧
      (∀ st id,
        ((completeUpdate st id (String.mk
            (truncateResult MAX_CHARS [Char.ofNat 35]
              (List.replicate 6000 (Char.ofNat 97))))).tasks id).result =
          String.mk
            (truncateResult MAX_CHARS [Char.ofNat 35] (List.replicate 6000 (Char.ofNat 97))))) :=
  truncation_spec MAX_CHARS [Char.ofNat 35] (List.replicate 6000 (Char.ofNat 97)) (by decide)

/-- C10: atomicity of the revert.  In every reachable state, when
`completeTask` is called with id `0` or an id never created, the call fails
with "Task does not exist" and the post-call state is unchanged: same
counter, same mapping at every slot, and no event emitted. -/
theorem completeTask_revert_atomic (st : AIAgentState) (h : Reachable st)
    (id : Nat) (r : String) (hid : id = 0 ∨ id ∉ createdIds st.log) :
    completeTask st id r = Except.error "Task does not exist" ∧
    applyOp st (Op.complete id r) = st ∧
    (applyOp st (Op.complete id r)).taskCounter = st.taskCounter ∧
    (∀ i, (applyOp st (Op.complete id r)).tasks i = st.tasks i) ∧
    (applyOp st (Op.complete id r)).log = st.log := by
  have hinv := reachable_inv st h
  have hz : (st.tasks id).id = 0 := by
    rw [tasks_id_zero_iff st hinv id]
    rw [mem_createdIds_iff st hinv id] at hid
    omega
  have herr : completeTask st id r = Except.error "Task does not exist" := by
    simp [completeTask, hz]
  have happ : applyOp st (Op.complete id r) = st := by
    simp [applyOp, herr]
  exact ⟨herr, happ, by rw [happ], fun i => by rw [happ], by rw [happ]⟩

/-- C10 witness: completing the never-created task 99 on the reachable state
`stB` fails and changes nothing. -/
theorem completeTask_revert_atomic_witness :
    (completeTask stB 99 "x" = Except.error "Task does not exist" ∧
      applyOp stB (Op.complete 99 "x") = stB ∧
      (applyOp stB (Op.complete 99 "x")).taskCounter = stB.taskCounter ∧
      (∀ i, (applyOp stB (Op.complete 99 "x")).tasks i = stB.tasks i) ∧
      (applyOp stB (Op.complete 99 "x")).log = stB.log) :=
  completeTask_revert_atomic stB reachable_stB 99 "x" (Or.inr (by decide))

end AIAgent
